import Mathlib

/-!
Shallow embedding of the Home-Security-Monitoring-Hub backend
(`src/backend.py`) and verification of its specification claims.

Modelling conventions:
* `datetime.utcnow()` is modelled by a natural-number clock held in the
  system state; each capture returns the current clock and advances it,
  so server timestamps are strictly increasing.
* `uuid.uuid4()` is modelled by a natural-number counter `nextId`; the
  property the code relies on (freshness/uniqueness) is preserved.
* SQL tables become Lean lists in insertion order; `UPDATE ... WHERE`
  becomes `List.map` guarded by the row predicate, `SELECT ... WHERE`
  with one row becomes `List.find?`.
* `ORDER BY timestamp DESC LIMIT n` is modelled twice: by an executable
  deterministic comparison sort (`sortTsDesc`, standing in for SQLite's
  concrete sorter) and by the relational contract `sqlSelectDesc` that
  captures exactly what SQL guarantees (some permutation sorted
  non-increasingly by timestamp, truncated) — SQL promises nothing about
  the relative order of equal-timestamp rows.
* A Python exception escaping an endpoint (`s["name"]` with `s = None`)
  is modelled by `Except`-style error results; the backend's
  `manual_trigger` returns the post-crash state together with the
  outcome, since the `UPDATE` has already been executed when the
  exception is raised.
* The `sensitivity` column is a float that no operation under
  verification ever reads or writes; it is omitted from the embedding.
-/

/-! ### String helpers: Python's `str.lower()` and `in` (substring) -/

/-- Is `n` a leading block of `l`? (helper for substring search). -/
def listLeads : List Char → List Char → Bool
  | [], _ => true
  | _ :: _, [] => false
  | a :: as, b :: bs => a == b && listLeads as bs

/-- Does `n` occur as a contiguous block inside `l`? -/
def listHasSub (n : List Char) : List Char → Bool
  | [] => listLeads n []
  | b :: bs => listLeads n (b :: bs) || listHasSub n bs

/-- Python `needle in haystack` for strings. -/
def strIn (needle haystack : String) : Bool :=
  listHasSub needle.data haystack.data

/-- Python `str.lower()` (ASCII case folding suffices for the keywords used). -/
def strLower (s : String) : String :=
  String.mk (s.data.map Char.toLower)

/-! ### Data model (tables of `src/backend.py`, lines 35-68) -/

/-- A row of the `sensors` table: id, name, type, is_triggered
(0=Safe, 1=Standard, 2=Warning, 3=Critical). -/
structure Sensor where
  id : String
  name : String
  stype : String
  is_triggered : Nat
deriving DecidableEq

/-- A structured event payload (the code stores `json.dumps(payload)`;
all payloads built by this backend are string-to-string maps). -/
def Payload : Type := List (String × String)

instance : DecidableEq Payload := by
  unfold Payload
  infer_instance

/-- A row of the `events` table. -/
structure Event where
  id : Nat
  timestamp : Nat
  level : String
  source : String
  payload : Option Payload
deriving DecidableEq

/-- A row of the `risk_assessments` table. -/
structure Assessment where
  id : Nat
  timestamp : Nat
  score : Int
  risk_level : String
  details : String
deriving DecidableEq

/-- The `event` part of a broadcast websocket message (backend.py line 137). -/
structure EvMsg where
  level : String
  source : String
  payload : Option Payload
deriving DecidableEq

/-- A broadcast websocket message `{"type": ..., "event": ...}`. -/
structure WireMsg where
  mtype : String
  event : EvMsg
deriving DecidableEq

/-- A connected live viewer (a `WebSocket` in `ConnectionManager.active`):
`alive` is whether `send_text` still succeeds on it, `inbox` the messages
delivered so far. -/
structure Viewer where
  vid : Nat
  alive : Bool
  inbox : List WireMsg
deriving DecidableEq

/-- The whole backend state: the durable tables, the transient viewer
set, the wall clock and the id source. -/
structure St where
  sensors : List Sensor
  events : List Event
  viewers : List Viewer
  assessments : List Assessment
  clock : Nat
  nextId : Nat
deriving DecidableEq

/-! ### ConnectionManager (backend.py lines 114-127) -/

/-- `await conn.send_text(...)`: delivery succeeds iff the connection is
still alive; a dead connection raises (modelled as `.error`). -/
def sendText (v : Viewer) (m : WireMsg) : Except Unit Viewer :=
  if v.alive then .ok { v with inbox := v.inbox ++ [m] } else .error ()

/-- `ConnectionManager.disconnect`: `if ws in active: active.remove(ws)` —
removes the first occurrence of the given connection, no-op if absent. -/
def removeFirst : List Viewer → Nat → List Viewer
  | [], _ => []
  | w :: t, i => if w.vid == i then t else w :: removeFirst t i

/-- The loop body of `ConnectionManager.broadcast`: iterate over the
snapshot `list(self.active)`; on send success the shared connection
object is updated in the live list, on failure (bare `except`) the
connection is disconnected. -/
def broadcastGo (m : WireMsg) : List Viewer → List Viewer → List Viewer
  | [], cur => cur
  | v :: rest, cur =>
    match sendText v m with
    | .ok v2 => broadcastGo m rest (cur.map (fun w => if w.vid == v.vid then v2 else w))
    | .error _ => broadcastGo m rest (removeFirst cur v.vid)

/-- `ConnectionManager.broadcast(message)`: total — every per-connection
failure is caught inside the loop, so nothing propagates to the caller. -/
def broadcast (m : WireMsg) (active : List Viewer) : List Viewer :=
  broadcastGo m active active

/-! ### Helpers and endpoints -/

/-- `log_event` (backend.py lines 130-137): insert an event with a fresh
id and a server-side timestamp, then broadcast it. -/
def log_event (level src : String) (payload : Option Payload) (s : St) : St :=
  let ev : Event := ⟨s.nextId, s.clock, level, src, payload⟩
  { s with
    events := s.events ++ [ev]
    nextId := s.nextId + 1
    clock := s.clock + 1
    viewers := broadcast ⟨"event", ⟨level, src, payload⟩⟩ s.viewers }

/-- Severity classification of `manual_trigger` (backend.py lines 208-215),
applied when `active` is true. -/
def classifyLevel (event_text : String) : Nat :=
  let txt := strLower event_text
  if strIn "break" txt || strIn "force" txt || strIn "critical" txt then 3
  else if strIn "tamper" txt || strIn "warn" txt then 2
  else 1

/-- Event level string from the trigger level (backend.py line 221). -/
def sevString (trigger_level : Nat) : String :=
  if trigger_level == 3 then "critical"
  else if trigger_level == 2 then "warn"
  else "info"

deriving instance DecidableEq for Except

/-- Python `TypeError` from subscripting `None` (`s["name"]` when the
`fetch_one` found no row). -/
inductive PyErr where
  | noneSubscript
deriving DecidableEq

/-- `POST /sensors/{sensor_id}/trigger` (backend.py lines 204-224).
Returns the state after the call (the `UPDATE` persists even when the
handler then crashes) together with either the returned level or the
escaped exception. -/
def manual_trigger (sensor_id : String) (active : Bool) (event_text : String)
    (s : St) : St × Except PyErr Nat :=
  let trigger_level : Nat := if active then classifyLevel event_text else 0
  let sensors1 := s.sensors.map
    (fun sen => if sen.id == sensor_id then { sen with is_triggered := trigger_level } else sen)
  let s1 := { s with sensors := sensors1 }
  if active then
    match sensors1.find? (fun sen => sen.id == sensor_id) with
    | none => (s1, .error PyErr.noneSubscript)
    | some sen =>
      (log_event (sevString trigger_level) "manual.trigger"
        (some [("sensor", sen.name), ("msg", event_text)]) s1, .ok trigger_level)
  else (s1, .ok 0)

/-- `POST /sensors/{sensor_id}/reset` (backend.py lines 226-229). -/
def reset_sensor (sensor_id : String) (s : St) : St :=
  let sensors1 := s.sensors.map
    (fun sen => if sen.id == sensor_id then { sen with is_triggered := 0 } else sen)
  { s with sensors := sensors1 }

/-! ### Event retrieval (backend.py lines 232-234) -/

/-- Insert an event into a list already sorted non-increasingly by
timestamp, keeping the sort. -/
def insTs (e : Event) : List Event → List Event
  | [] => [e]
  | f :: t => if e.timestamp ≤ f.timestamp then f :: insTs e t else e :: f :: t

/-- Deterministic comparison sort standing in for SQLite's
`ORDER BY timestamp DESC`. -/
def sortTsDesc : List Event → List Event
  | [] => []
  | e :: t => insTs e (sortTsDesc t)

/-- `GET /events?limit=n`: `SELECT * FROM events ORDER BY timestamp DESC LIMIT n`. -/
def get_events (s : St) (limit : Nat) : List Event :=
  (sortTsDesc s.events).take limit

/-- The route's default for `limit` (backend.py line 233). -/
def eventsDefaultLimit : Nat := 20

/-- `GET /events` with the limit parameter omitted. -/
def get_events_default (s : St) : List Event :=
  get_events s eventsDefaultLimit

/-- Non-increasing-by-timestamp check on an event list. -/
def tsSortedDesc : List Event → Bool
  | [] => true
  | [_] => true
  | a :: b :: t => decide (b.timestamp ≤ a.timestamp) && tsSortedDesc (b :: t)

/-- What SQL actually guarantees for
`SELECT ... ORDER BY timestamp DESC LIMIT n`: the result is the
truncation of some permutation of the table that is sorted
non-increasingly by timestamp. Equal-timestamp rows may come back in
any relative order. -/
def sqlSelectDesc (evs : List Event) (limit : Nat) (r : List Event) : Prop :=
  ∃ p : List Event, List.Perm p evs ∧ tsSortedDesc p = true ∧ r = p.take limit

/-! ### Risk assessments (backend.py lines 236-250) -/

/-- `POST /assessment`. -/
def save_assessment (score : Int) (details : String) (s : St) : St :=
  let a : Assessment :=
    ⟨s.nextId, s.clock, score, if score ≥ 80 then "Safe" else "Risk", details⟩
  { s with
    assessments := s.assessments ++ [a]
    nextId := s.nextId + 1
    clock := s.clock + 1 }

/-- `ORDER BY timestamp DESC LIMIT 1` then `fetch_one`: a row of maximal
timestamp (the first-inserted one if several tie). -/
def latestBy : List Assessment → Option Assessment
  | [] => none
  | a :: t =>
    match latestBy t with
    | none => some a
    | some b => if b.timestamp > a.timestamp then some b else some a

/-- `GET /assessment/latest`. -/
def get_latest_assessment (s : St) : Option Assessment :=
  latestBy s.assessments

/-! ### Startup seeding (backend.py lines 140-154) -/

/-- The fixed seed list. -/
def startupSeed : List (String × String) :=
  [("Front Door", "door"), ("Kitchen Window", "window"),
   ("Living Room Motion", "motion"), ("Backyard Camera", "camera")]

/-- Insert the seed sensors, drawing fresh ids. -/
def seedFrom : Nat → List (String × String) → List Sensor
  | _, [] => []
  | i, (n, t) :: rest => ⟨toString i, n, t, 0⟩ :: seedFrom (i + 1) rest

/-- The `startup` hook: seed the sensors table if it is empty. -/
def startup (s : St) : St :=
  if s.sensors.isEmpty then
    { s with
      sensors := seedFrom s.nextId startupSeed
      nextId := s.nextId + startupSeed.length }
  else s

/-- A fresh process: empty tables, clock and id source at zero. -/
def emptySt : St := ⟨[], [], [], [], 0, 0⟩

/-- The state right after first startup. -/
def startSt : St := startup emptySt

/-! ### Concrete demonstration states (used by witnesses and
counterexamples) -/

/-- A small registry of two sensors, three attached viewers (the second
one already disconnected), empty logs, clock 10, next id 5. -/
def demoSt : St :=
  ⟨[⟨"s1", "Front Door", "door", 0⟩, ⟨"s2", "Kitchen Window", "window", 0⟩],
   [], [⟨1, true, []⟩, ⟨2, false, []⟩, ⟨3, true, []⟩], [], 10, 5⟩

/-- The first sensor of `demoSt`. -/
def demoSen1 : Sensor := ⟨"s1", "Front Door", "door", 0⟩

/-! ### Generic list helper lemmas -/

/-- `find?` commutes with a `map` whose function preserves the predicate. -/
theorem find_map_comm {α : Type} (f : α → α) (p : α → Bool)
    (hp : ∀ x, p (f x) = p x) :
    ∀ l : List α, (l.map f).find? p = (l.find? p).map f := by
  intro l
  induction l with
  | nil => rfl
  | cons x t ih =>
    by_cases hpx : p x = true
    · simp [List.find?_cons_of_pos, hpx, hp x]
    · simp only [List.map_cons]
      rw [List.find?_cons_of_neg _ (by rw [hp x]; exact hpx),
          List.find?_cons_of_neg _ hpx]
      exact ih

/-- Updating by an id absent from the list is a no-op. -/
theorem map_upd_noop (l : List Viewer) (i : Nat) (x : Viewer)
    (h : i ∉ l.map (fun w => w.vid)) :
    l.map (fun w => if w.vid == i then x else w) = l := by
  induction l with
  | nil => rfl
  | cons w t ih =>
    simp only [List.map_cons, List.mem_cons] at h
    push_neg at h
    obtain ⟨h1, h2⟩ := h
    have hbe : ¬ ((w.vid == i) = true) := by
      simp only [beq_iff_eq]
      exact fun hh => h1 hh.symm
    simp only [List.map_cons, if_neg hbe, ih h2]

/-- Removing an id that first occurs right after `l1`. -/
theorem removeFirst_append (l1 l2 : List Viewer) (v : Viewer)
    (h : v.vid ∉ l1.map (fun w => w.vid)) :
    removeFirst (l1 ++ v :: l2) v.vid = l1 ++ l2 := by
  induction l1 with
  | nil => simp [removeFirst]
  | cons w t ih =>
    simp only [List.map_cons, List.mem_cons] at h
    push_neg at h
    obtain ⟨h1, h2⟩ := h
    have hw : ¬ ((w.vid == v.vid) = true) := by
      simp only [beq_iff_eq]
      exact fun hh => h1 hh.symm
    simp only [List.cons_append, removeFirst, if_neg hw]
    exact congrArg (fun l => w :: l) (ih h2)

/-! ### Broadcast correctness -/

/-- Successful delivery of a message to a viewer. -/
def deliverMsg (m : WireMsg) (v : Viewer) : Viewer :=
  { v with inbox := v.inbox ++ [m] }

/-- The specified effect of a broadcast, following the spec's words:
every attached live viewer receives the message, every dead viewer is
implicitly detached. -/
def broadcastSpec (m : WireMsg) (vs : List Viewer) : List Viewer :=
  vs.filterMap (fun v => if v.alive then some (deliverMsg m v) else none)

/-- Invariant of the broadcast loop: with pairwise-distinct connection
ids, processing the snapshot `snap` against the live list `pre ++ snap`
(where `pre` has already been processed) delivers to the live part of
`snap` and prunes its dead part. -/
theorem broadcastGo_eq (m : WireMsg) :
    ∀ (snap pre : List Viewer),
      (((pre ++ snap).map (fun v => v.vid)).Nodup) →
      broadcastGo m snap (pre ++ snap) = pre ++ broadcastSpec m snap := by
  intro snap
  induction snap with
  | nil => intro pre _; simp [broadcastGo, broadcastSpec]
  | cons v rest ih =>
    intro pre hnd
    have hnd2 := hnd
    rw [List.map_append, List.map_cons, List.nodup_append] at hnd2
    obtain ⟨hpre, hcons, hdisj⟩ := hnd2
    have hvrest : v.vid ∉ rest.map (fun w => w.vid) := (List.nodup_cons.mp hcons).1
    have hvpre : v.vid ∉ pre.map (fun w => w.vid) := by
      intro hmem
      exact hdisj hmem (List.mem_cons_self _ _)
    by_cases hal : v.alive
    · have hsend : sendText v m = .ok (deliverMsg m v) := by
        simp [sendText, hal, deliverMsg]
      have hmap : (pre ++ v :: rest).map
          (fun w => if w.vid == v.vid then deliverMsg m v else w)
          = pre ++ deliverMsg m v :: rest := by
        rw [List.map_append, List.map_cons]
        rw [map_upd_noop pre v.vid _ hvpre, map_upd_noop rest v.vid _ hvrest]
        simp
      have hnd3 : (((pre ++ [deliverMsg m v]) ++ rest).map (fun w => w.vid)).Nodup := by
        have : ((pre ++ [deliverMsg m v]) ++ rest).map (fun w => w.vid)
            = (pre ++ v :: rest).map (fun w => w.vid) := by
          simp [deliverMsg]
        rw [this]; exact hnd
      calc broadcastGo m (v :: rest) (pre ++ v :: rest)
          = broadcastGo m rest ((pre ++ [deliverMsg m v]) ++ rest) := by
            simp only [broadcastGo, hsend, hmap]
            rw [List.append_cons]
        _ = (pre ++ [deliverMsg m v]) ++ broadcastSpec m rest := ih _ hnd3
        _ = pre ++ broadcastSpec m (v :: rest) := by
            simp [broadcastSpec, hal, List.append_assoc]
    · have hsend : sendText v m = .error () := by simp [sendText, hal]
      have hrem : removeFirst (pre ++ v :: rest) v.vid = pre ++ rest :=
        removeFirst_append pre rest v hvpre
      have hnd3 : ((pre ++ rest).map (fun w => w.vid)).Nodup := by
        refine List.Nodup.sublist ?_ hnd
        exact List.Sublist.map _
          (List.Sublist.append_left (List.Sublist.cons v (List.Sublist.refl rest)) _)
      calc broadcastGo m (v :: rest) (pre ++ v :: rest)
          = broadcastGo m rest (pre ++ rest) := by
            simp only [broadcastGo, hsend, hrem]
        _ = pre ++ broadcastSpec m rest := ih _ hnd3
        _ = pre ++ broadcastSpec m (v :: rest) := by simp [broadcastSpec, hal]

/-- Broadcast, on a live list with pairwise-distinct connection ids,
equals its specified effect. -/
theorem broadcast_spec_eq (m : WireMsg) (vs : List Viewer)
    (h : (vs.map (fun v => v.vid)).Nodup) :
    broadcast m vs = broadcastSpec m vs := by
  have := broadcastGo_eq m vs [] (by simpa using h)
  simpa [broadcast] using this

/-! ### Sorting lemmas for event retrieval -/

/-- Head-bound check: the first element, if any, has timestamp at most `b`. -/
def headTsLe (b : Nat) : List Event → Bool
  | [] => true
  | f :: _ => decide (f.timestamp ≤ b)

/-- `tsSortedDesc` unfolded one step through the head bound. -/
theorem tsSortedDesc_cons (f : Event) (l : List Event) :
    tsSortedDesc (f :: l) = (headTsLe f.timestamp l && tsSortedDesc l) := by
  cases l with
  | nil => rfl
  | cons g t => rfl

/-- Inserting an element below the bound keeps the head bound. -/
theorem headTsLe_insTs (e : Event) (l : List Event) (b : Nat)
    (h1 : headTsLe b l = true) (h2 : e.timestamp ≤ b) :
    headTsLe b (insTs e l) = true := by
  cases l with
  | nil => simpa [insTs, headTsLe] using h2
  | cons f t =>
    by_cases hef : e.timestamp ≤ f.timestamp
    · simpa [insTs, if_pos hef, headTsLe] using h1
    · simpa [insTs, if_neg hef, headTsLe] using h2

/-- Insertion into a non-increasing list keeps it non-increasing. -/
theorem insTs_sorted (e : Event) (l : List Event)
    (h : tsSortedDesc l = true) : tsSortedDesc (insTs e l) = true := by
  induction l with
  | nil => rfl
  | cons f t ih =>
    rw [tsSortedDesc_cons] at h
    obtain ⟨hh, ht⟩ := Bool.and_eq_true_iff.mp h
    by_cases hef : e.timestamp ≤ f.timestamp
    · rw [insTs, if_pos hef, tsSortedDesc_cons]
      exact Bool.and_eq_true_iff.mpr ⟨headTsLe_insTs e t f.timestamp hh hef, ih ht⟩
    · rw [insTs, if_neg hef, tsSortedDesc_cons]
      refine Bool.and_eq_true_iff.mpr ⟨?_, by rw [tsSortedDesc_cons]; exact h⟩
      simp only [headTsLe, decide_eq_true_eq]
      omega

/-- The stand-in sort really sorts. -/
theorem sortTsDesc_sorted (l : List Event) : tsSortedDesc (sortTsDesc l) = true := by
  induction l with
  | nil => rfl
  | cons e t ih => exact insTs_sorted e (sortTsDesc t) ih

/-- Insertion is a permutation of consing. -/
theorem insTs_perm (e : Event) (l : List Event) :
    List.Perm (insTs e l) (e :: l) := by
  induction l with
  | nil => exact List.Perm.refl _
  | cons f t ih =>
    by_cases hef : e.timestamp ≤ f.timestamp
    · rw [insTs, if_pos hef]
      exact List.Perm.trans (List.Perm.cons f ih) (List.Perm.swap e f t)
    · rw [insTs, if_neg hef]

/-- The stand-in sort permutes the table. -/
theorem sortTsDesc_perm (l : List Event) : List.Perm (sortTsDesc l) l := by
  induction l with
  | nil => exact List.Perm.refl _
  | cons e t ih =>
    exact List.Perm.trans (insTs_perm e (sortTsDesc t)) (List.Perm.cons e ih)

/-- Truncation keeps the head bound. -/
theorem headTsLe_take (b : Nat) (l : List Event) (n : Nat)
    (h : headTsLe b l = true) : headTsLe b (l.take n) = true := by
  cases l with
  | nil => simp [headTsLe]
  | cons f t =>
    cases n with
    | zero => rfl
    | succ m => simpa [headTsLe] using h

/-- Truncation of a non-increasing list is non-increasing. -/
theorem tsSortedDesc_take (l : List Event) (n : Nat)
    (h : tsSortedDesc l = true) : tsSortedDesc (l.take n) = true := by
  induction l generalizing n with
  | nil => simp [h]
  | cons f t ih =>
    cases n with
    | zero => rfl
    | succ m =>
      rw [tsSortedDesc_cons] at h
      obtain ⟨hh, ht⟩ := Bool.and_eq_true_iff.mp h
      rw [List.take_succ_cons, tsSortedDesc_cons]
      exact Bool.and_eq_true_iff.mpr ⟨headTsLe_take _ _ _ hh, ih m ht⟩

/-- The executable query meets the relational SQL contract. -/
theorem get_events_meets_sql (s : St) (limit : Nat) :
    sqlSelectDesc s.events limit (get_events s limit) :=
  ⟨sortTsDesc s.events, sortTsDesc_perm _, sortTsDesc_sorted _, rfl⟩

/-! ### Latest-assessment lemma -/

/-- A row strictly newer than everything before it is the fetched row. -/
theorem latestBy_append_newest (l : List Assessment) (r : Assessment)
    (h : l.all (fun a => decide (a.timestamp < r.timestamp)) = true) :
    latestBy (l ++ [r]) = some r := by
  induction l with
  | nil => rfl
  | cons a t ih =>
    simp only [List.all_cons, Bool.and_eq_true, decide_eq_true_eq] at h
    obtain ⟨ha, ht⟩ := h
    have hrec : latestBy (t ++ [r]) = some r :=
      ih (by simpa [List.all_eq_true] using ht)
    have hrec2 : latestBy (t.append [r]) = some r := hrec
    simp only [List.cons_append, latestBy, hrec, hrec2]
    rw [if_pos (show r.timestamp > a.timestamp from ha)]

/-! ### manual_trigger unfolding lemmas -/

/-- The sensor-row update performed by a trigger call. -/
def updSensors (sensor_id : String) (lvl : Nat) (l : List Sensor) : List Sensor :=
  l.map (fun sen => if sen.id == sensor_id then { sen with is_triggered := lvl } else sen)

/-- Whatever the arguments, a trigger call rewrites the sensors table by
`updSensors` with the classified (or reset) level and touches no other
sensor rows. -/
theorem manual_trigger_sensors (sensor_id : String) (active : Bool)
    (event_text : String) (s : St) :
    (manual_trigger sensor_id active event_text s).1.sensors
      = updSensors sensor_id (if active then classifyLevel event_text else 0) s.sensors := by
  cases active with
  | false => rfl
  | true =>
    simp only [manual_trigger, if_pos, updSensors]
    cases hf : (s.sensors.map (fun sen =>
        if sen.id == sensor_id then { sen with is_triggered := classifyLevel event_text } else sen)).find?
        (fun sen => sen.id == sensor_id) with
    | none => simp [hf]
    | some sen => simp [hf, log_event]

/-- An element returned by `find?` satisfies the predicate (stated with
the predicate explicit, to keep unification first-order). -/
theorem find_pred {α : Type} (p : α → Bool) :
    ∀ (l : List α) (a : α), l.find? p = some a → p a = true := by
  intro l
  induction l with
  | nil => intro a h; cases h
  | cons x t ih =>
    intro a h
    by_cases hx : p x = true
    · rw [List.find?_cons_of_pos _ hx] at h
      cases h
      exact hx
    · rw [List.find?_cons_of_neg _ hx] at h
      exact ih a h

/-- On a known sensor id, an active trigger reduces to: classify, update
the registry, log and broadcast, return the level. -/
theorem manual_trigger_active_eq (s : St) (sensor_id event_text : String)
    (sen0 : Sensor)
    (hfind : s.sensors.find? (fun x => x.id == sensor_id) = some sen0) :
    manual_trigger sensor_id true event_text s =
      (log_event (sevString (classifyLevel event_text)) "manual.trigger"
        (some [("sensor", sen0.name), ("msg", event_text)])
        { s with sensors := updSensors sensor_id (classifyLevel event_text) s.sensors },
       .ok (classifyLevel event_text)) := by
  have hcomm := find_map_comm
    (fun sen => if sen.id == sensor_id then { sen with is_triggered := classifyLevel event_text } else sen)
    (fun x => x.id == sensor_id)
    (by
      intro x
      by_cases hx : (x.id == sensor_id) = true
      · simp [hx]
      · simp only [Bool.not_eq_true] at hx
        simp [hx])
    s.sensors
  have hp0 : (sen0.id == sensor_id) = true :=
    find_pred (fun x => x.id == sensor_id) s.sensors sen0 hfind
  have hfound : (s.sensors.map (fun sen =>
      if sen.id == sensor_id then { sen with is_triggered := classifyLevel event_text } else sen)).find?
      (fun x => x.id == sensor_id)
      = some { sen0 with is_triggered := classifyLevel event_text } := by
    rw [hcomm, hfind]
    show some (if (sen0.id == sensor_id) = true
        then { sen0 with is_triggered := classifyLevel event_text } else sen0)
      = some { sen0 with is_triggered := classifyLevel event_text }
    rw [if_pos hp0]
  have key : manual_trigger sensor_id true event_text s =
      match (s.sensors.map (fun sen =>
          if sen.id == sensor_id then { sen with is_triggered := classifyLevel event_text } else sen)).find?
          (fun x => x.id == sensor_id) with
      | none =>
        ({ s with sensors := updSensors sensor_id (classifyLevel event_text) s.sensors },
         .error PyErr.noneSubscript)
      | some sen =>
        (log_event (sevString (classifyLevel event_text)) "manual.trigger"
          (some [("sensor", sen.name), ("msg", event_text)])
          { s with sensors := updSensors sensor_id (classifyLevel event_text) s.sensors },
         .ok (classifyLevel event_text)) := rfl
  rw [key, hfound]

/-! ### Alert-level invariant machinery -/

/-- All registry rows carry an alert level in {0,1,2,3}. -/
def levelsOKb (s : St) : Bool :=
  s.sensors.all (fun sen => decide (sen.is_triggered ≤ 3))

/-- The classifier only produces the levels 1, 2 and 3. -/
theorem classifyLevel_le (event_text : String) : classifyLevel event_text ≤ 3 := by
  by_cases h1 : (strIn "break" (strLower event_text) || strIn "force" (strLower event_text)
      || strIn "critical" (strLower event_text)) = true
  · simp [classifyLevel, h1]
  · by_cases h2 : (strIn "tamper" (strLower event_text) || strIn "warn" (strLower event_text)) = true
    · simp [classifyLevel, h1, h2]
    · simp [classifyLevel, h1, h2]

/-- Updating one row with an in-range level keeps every row in range. -/
theorem updSensors_levels (l : List Sensor) (sensor_id : String) (lvl : Nat)
    (hlvl : lvl ≤ 3)
    (h : l.all (fun sen => decide (sen.is_triggered ≤ 3)) = true) :
    (updSensors sensor_id lvl l).all (fun sen => decide (sen.is_triggered ≤ 3)) = true := by
  induction l with
  | nil => rfl
  | cons x t ih =>
    simp only [List.all_cons, Bool.and_eq_true, decide_eq_true_eq] at h
    obtain ⟨hx, ht⟩ := h
    have ht2 := ih ht
    simp only [updSensors, List.map_cons, List.all_cons, Bool.and_eq_true, decide_eq_true_eq]
    constructor
    · by_cases hid : (x.id == sensor_id) = true
      · rw [if_pos hid]
        exact hlvl
      · rw [if_neg hid]
        exact hx
    · exact ht2

/-- One externally reachable core operation on the state. -/
inductive Op where
  | trig : String → Bool → String → Op
  | rst : String → Op

/-- Execute one operation (the crash on an unknown id still leaves the
already-executed registry write behind). -/
def stepOp (s : St) : Op → St
  | .trig sensor_id active event_text => (manual_trigger sensor_id active event_text s).1
  | .rst sensor_id => reset_sensor sensor_id s

/-- Execute a sequence of operations. -/
def runOps (s : St) (ops : List Op) : St :=
  ops.foldl stepOp s

/-- Every single operation preserves the alert-level range. -/
theorem stepOp_levels (s : St) (op : Op)
    (h : levelsOKb s = true) : levelsOKb (stepOp s op) = true := by
  cases op with
  | trig sensor_id active event_text =>
    show levelsOKb (manual_trigger sensor_id active event_text s).1 = true
    unfold levelsOKb
    rw [manual_trigger_sensors]
    refine updSensors_levels _ _ _ ?_ h
    cases active with
    | false => simp
    | true => simpa using classifyLevel_le event_text
  | rst sensor_id =>
    show levelsOKb (reset_sensor sensor_id s) = true
    unfold levelsOKb reset_sensor
    exact updSensors_levels s.sensors sensor_id 0 (by omega) h

/-- Operation sequences preserve the alert-level range. -/
theorem runOps_levels (ops : List Op) :
    ∀ s : St, levelsOKb s = true → levelsOKb (runOps s ops) = true := by
  induction ops with
  | nil => intro s h; exact h
  | cons op rest ih =>
    intro s h
    exact ih (stepOp s op) (stepOp_levels s op h)

/-! ### Spec-side definitions (written from the specification's words,
to be compared with the source-side definitions) -/

/-- Severity classification as the specification words it: case-insensitive
substring match, first match wins, in priority order
"break"/"force"/"critical" → 3, else "tamper"/"warn" → 2, else 1. -/
def specSeverity (event_text : String) : Nat :=
  let t := strLower event_text
  if strIn "break" t || strIn "force" t || strIn "critical" t then 3
  else if strIn "tamper" t || strIn "warn" t then 2
  else 1

/-- The code's inline classifier computes exactly the specified severity. -/
theorem classifyLevel_eq_spec (event_text : String) :
    classifyLevel event_text = specSeverity event_text := rfl

/-- The route defaults of `manual_trigger` (backend.py line 205). -/
def defaultActive : Bool := true

/-- The route default for `event_text` (backend.py line 205). -/
def defaultEventText : String := "Manual Trigger"

/-- The registry row returned by `find?` after `updSensors` is the found
row with its level overwritten. -/
theorem updSensors_find (l : List Sensor) (sensor_id : String) (lvl : Nat)
    (sen0 : Sensor)
    (hfind : l.find? (fun x => x.id == sensor_id) = some sen0) :
    (updSensors sensor_id lvl l).find? (fun x => x.id == sensor_id)
      = some { sen0 with is_triggered := lvl } := by
  have hcomm := find_map_comm
    (fun sen => if sen.id == sensor_id then { sen with is_triggered := lvl } else sen)
    (fun x => x.id == sensor_id)
    (by
      intro x
      by_cases hx : (x.id == sensor_id) = true
      · simp [hx]
      · simp only [Bool.not_eq_true] at hx
        simp [hx])
    l
  have hp0 : (sen0.id == sensor_id) = true :=
    find_pred (fun x => x.id == sensor_id) l sen0 hfind
  unfold updSensors
  rw [hcomm, hfind]
  show some (if (sen0.id == sensor_id) = true
      then { sen0 with is_triggered := lvl } else sen0)
    = some { sen0 with is_triggered := lvl }
  rw [if_pos hp0]

/-- C1: for every known sensor_id and every event_text,
`trigger(sensor_id, active=true, event_text)` classifies severity by the
specified case-insensitive priority-ordered substring match
(`specSeverity`: "break"/"force"/"critical" → 3, else "tamper"/"warn" →
2, else 1), updates the registry row for that sensor to exactly that
level, and returns that numeric level to the caller. -/
theorem trigger_active_classifies (s : St) (sensor_id event_text : String)
    (sen0 : Sensor)
    (hfind : s.sensors.find? (fun x => x.id == sensor_id) = some sen0) :
    (manual_trigger sensor_id true event_text s).2 = .ok (specSeverity event_text) ∧
    ((manual_trigger sensor_id true event_text s).1.sensors.find?
        (fun x => x.id == sensor_id)).map (fun x => x.is_triggered)
      = some (specSeverity event_text) := by
  rw [manual_trigger_active_eq s sensor_id event_text sen0 hfind]
  dsimp only [log_event]
  refine ⟨rfl, ?_⟩
  rw [updSensors_find s.sensors sensor_id (classifyLevel event_text) sen0 hfind]
  rfl

/-- C1 witness: on the demo state, triggering sensor "s1" with the
mixed-case text "WARN now" yields level 2 and stores level 2. -/
theorem trigger_active_classifies_witness :
    specSeverity "WARN now" = 2 ∧
    ((manual_trigger "s1" true "WARN now" demoSt).2 = .ok (specSeverity "WARN now") ∧
     ((manual_trigger "s1" true "WARN now" demoSt).1.sensors.find?
        (fun x => x.id == "s1")).map (fun x => x.is_triggered)
      = some (specSeverity "WARN now")) :=
  ⟨by decide, trigger_active_classifies demoSt "s1" "WARN now" demoSen1 (by decide)⟩

/-- C2 (failing behavior, evaluated): triggering the unknown sensor id
"ghost" does NOT fail with a typed NotFound error. With `active=true`
the handler crashes with an untyped `None`-subscript `TypeError`
(an HTTP 500), after a zero-row registry update, before any event is
logged or broadcast (the final state equals the initial state); with
`active=false` it silently succeeds and returns level 0. -/
theorem trigger_unknown_sensor_behavior :
    manual_trigger "ghost" true "hello" demoSt = (demoSt, .error PyErr.noneSubscript) ∧
    manual_trigger "ghost" false "hello" demoSt = (demoSt, .ok 0) := by
  constructor
  · decide
  · decide

/-- C3: `broadcast(message)` delivers the message to every attached live
viewer, a dead viewer does not prevent delivery to the others, and every
viewer whose delivery failed is removed from the attached set; the
operation is a total function (every per-viewer failure is caught inside
the loop, so it never raises to its caller). Stated for any snapshot of
pairwise-distinct connections, as produced by `attach`. -/
theorem broadcast_delivers_and_prunes (m : WireMsg) (vs : List Viewer)
    (hids : (vs.map (fun v => v.vid)).Nodup) :
    broadcast m vs
      = vs.filterMap (fun v => if v.alive then some (deliverMsg m v) else none) :=
  broadcast_spec_eq m vs hids

/-- A sample broadcast message. -/
def demoMsg : WireMsg := ⟨"event", ⟨"info", "manual.trigger", none⟩⟩

/-- C3 witness: broadcasting to three viewers of which the second is
dead delivers to viewers 1 and 3 and detaches viewer 2. -/
theorem broadcast_delivers_and_prunes_witness :
    (([⟨1, true, []⟩, ⟨2, false, []⟩, ⟨3, true, []⟩] : List Viewer).map
      (fun v => v.vid)).Nodup ∧
    broadcast demoMsg [⟨1, true, []⟩, ⟨2, false, []⟩, ⟨3, true, []⟩]
      = [⟨1, true, [demoMsg]⟩, ⟨3, true, [demoMsg]⟩] :=
  ⟨by decide,
   (broadcast_delivers_and_prunes demoMsg
      [⟨1, true, []⟩, ⟨2, false, []⟩, ⟨3, true, []⟩] (by decide)).trans (by decide)⟩

/-- C4: `reset(sensor_id)` rewrites the registry row to level 0 and
leaves the event log and the viewers (hence broadcasts) untouched, and
`trigger(sensor_id, active=false, event_text)` has exactly the same
state effect for every event_text, returning level 0; on a found row the
stored level afterwards is 0. -/
theorem reset_and_inactive_trigger_silent (s : St) (sensor_id event_text : String) :
    manual_trigger sensor_id false event_text s = (reset_sensor sensor_id s, .ok 0) ∧
    (reset_sensor sensor_id s).events = s.events ∧
    (reset_sensor sensor_id s).viewers = s.viewers ∧
    (reset_sensor sensor_id s).sensors = updSensors sensor_id 0 s.sensors ∧
    (∀ sen0 : Sensor, s.sensors.find? (fun x => x.id == sensor_id) = some sen0 →
      ((reset_sensor sensor_id s).sensors.find? (fun x => x.id == sensor_id)).map
          (fun x => x.is_triggered) = some 0) := by
  refine ⟨rfl, rfl, rfl, rfl, ?_⟩
  intro sen0 hfind
  show ((updSensors sensor_id 0 s.sensors).find? (fun x => x.id == sensor_id)).map
      (fun x => x.is_triggered) = some 0
  rw [updSensors_find s.sensors sensor_id 0 sen0 hfind]
  rfl

/-- C4 witness: on the demo state, an inactive trigger of "s1" equals a
reset of "s1" with returned level 0, and the stored level is 0. -/
theorem reset_and_inactive_trigger_silent_witness :
    manual_trigger "s1" false "anything" demoSt = (reset_sensor "s1" demoSt, .ok 0) ∧
    ((reset_sensor "s1" demoSt).sensors.find? (fun x => x.id == "s1")).map
        (fun x => x.is_triggered) = some 0 :=
  ⟨(reset_and_inactive_trigger_silent demoSt "s1" "anything").1,
   (reset_and_inactive_trigger_silent demoSt "s1" "anything").2.2.2.2 demoSen1 (by decide)⟩

/-- C5: `recent(limit=N)` returns at most N events, sorted non-increasing
by timestamp; the query is a pure read (so repeating it on the same state
returns identical output — no intervening appends means the same state);
the route's default limit is 20. -/
theorem get_events_bounded_sorted (s : St) (n : Nat) :
    (get_events s n).length ≤ n ∧
    tsSortedDesc (get_events s n) = true ∧
    get_events s n = get_events s n ∧
    get_events_default s = get_events s 20 := by
  refine ⟨?_, tsSortedDesc_take _ _ (sortTsDesc_sorted s.events), rfl, rfl⟩
  show ((sortTsDesc s.events).take n).length ≤ n
  rw [List.length_take]
  omega

/-- C6: `save(score, details)` persists an assessment whose risk_level is
"Safe" iff score ≥ 80 and "Risk" otherwise, with the server-side
timestamp; `latest()` after two saves returns the second, and is empty
when no assessments exist. -/
theorem save_assessment_risk_latest (s : St) (sc1 sc2 : Int) (d1 d2 : String)
    (hts : s.assessments.all (fun a => decide (a.timestamp < s.clock)) = true) :
    (∃ r : Assessment,
      (save_assessment sc2 d2 (save_assessment sc1 d1 s)).assessments
        = (save_assessment sc1 d1 s).assessments ++ [r] ∧
      (r.risk_level = "Safe" ↔ sc2 ≥ 80) ∧
      (r.risk_level = "Risk" ↔ ¬ sc2 ≥ 80) ∧
      r.score = sc2 ∧ r.details = d2 ∧
      r.timestamp = (save_assessment sc1 d1 s).clock ∧
      get_latest_assessment (save_assessment sc2 d2 (save_assessment sc1 d1 s)) = some r) ∧
    (∀ t : St, t.assessments = [] → get_latest_assessment t = none) := by
  constructor
  · refine ⟨⟨(save_assessment sc1 d1 s).nextId, (save_assessment sc1 d1 s).clock, sc2,
      if sc2 ≥ 80 then "Safe" else "Risk", d2⟩, rfl, ?_, ?_, rfl, rfl, rfl, ?_⟩
    · show (if sc2 ≥ 80 then "Safe" else "Risk") = "Safe" ↔ sc2 ≥ 80
      by_cases h80 : sc2 ≥ 80
      · rw [if_pos h80]
        exact ⟨fun _ => h80, fun _ => rfl⟩
      · rw [if_neg h80]
        exact ⟨fun h => absurd h (by decide), fun h => absurd h h80⟩
    · show (if sc2 ≥ 80 then "Safe" else "Risk") = "Risk" ↔ ¬ sc2 ≥ 80
      by_cases h80 : sc2 ≥ 80
      · rw [if_pos h80]
        exact ⟨fun h => absurd h (by decide), fun h => absurd h80 h⟩
      · rw [if_neg h80]
        exact ⟨fun _ => h80, fun _ => rfl⟩
    · show latestBy ((save_assessment sc1 d1 s).assessments ++ [_]) = _
      apply latestBy_append_newest
      show ((s.assessments ++ [(⟨s.nextId, s.clock, sc1,
          if sc1 ≥ 80 then "Safe" else "Risk", d1⟩ : Assessment)]).all
        (fun a => decide (a.timestamp < s.clock + 1))) = true
      rw [List.all_append]
      simp only [Bool.and_eq_true]
      constructor
      · simp only [List.all_eq_true, decide_eq_true_eq] at hts ⊢
        intro a ha
        exact Nat.lt_succ_of_lt (hts a ha)
      · simp
  · intro t h
    unfold get_latest_assessment
    rw [h]
    rfl

/-- C6 witness: saving score 85 then score 79 on the demo state: the
second record has risk_level "Risk" (79 < 80), the server timestamp, and
is what `latest()` returns; `latest()` on an empty store is empty. -/
theorem save_assessment_risk_latest_witness :
    (∃ r : Assessment,
      (save_assessment 79 "d2" (save_assessment 85 "d1" demoSt)).assessments
        = (save_assessment 85 "d1" demoSt).assessments ++ [r] ∧
      (r.risk_level = "Safe" ↔ (79 : Int) ≥ 80) ∧
      (r.risk_level = "Risk" ↔ ¬ (79 : Int) ≥ 80) ∧
      r.score = 79 ∧ r.details = "d2" ∧
      r.timestamp = (save_assessment 85 "d1" demoSt).clock ∧
      get_latest_assessment (save_assessment 79 "d2" (save_assessment 85 "d1" demoSt))
        = some r) ∧
    (∀ t : St, t.assessments = [] → get_latest_assessment t = none) :=
  save_assessment_risk_latest demoSt 85 79 "d1" "d2" (by decide)

/-- C7: on a known sensor, an active trigger appends exactly one event
with level "critical"/"warn"/"info" matching the classified level 3/2/1,
source "manual.trigger", payload {sensor: <sensor name>, msg:
event_text}, a fresh id (different from every stored event's id) and the
server-side clock as timestamp (the caller passes no timestamp), and
delivers to every live viewer exactly the message
{type: "event", event: {level, source, payload}} with those values. -/
theorem trigger_event_broadcast_shape (s : St) (sensor_id event_text : String)
    (sen0 : Sensor)
    (hfind : s.sensors.find? (fun x => x.id == sensor_id) = some sen0)
    (hfresh : s.events.all (fun e => decide (e.id < s.nextId)) = true)
    (hids : (s.viewers.map (fun v => v.vid)).Nodup) :
    (manual_trigger sensor_id true event_text s).2 = .ok (specSeverity event_text) ∧
    (manual_trigger sensor_id true event_text s).1.events
      = s.events ++ [⟨s.nextId, s.clock, sevString (specSeverity event_text),
          "manual.trigger", some [("sensor", sen0.name), ("msg", event_text)]⟩] ∧
    s.events.all (fun e => e.id != s.nextId) = true ∧
    (manual_trigger sensor_id true event_text s).1.viewers
      = s.viewers.filterMap (fun v => if v.alive then
          some { v with inbox := v.inbox ++
            [⟨"event", ⟨sevString (specSeverity event_text), "manual.trigger",
              some [("sensor", sen0.name), ("msg", event_text)]⟩⟩] }
          else none) := by
  rw [manual_trigger_active_eq s sensor_id event_text sen0 hfind]
  dsimp only [log_event]
  refine ⟨rfl, rfl, ?_, ?_⟩
  · simp only [List.all_eq_true, decide_eq_true_eq, bne_iff_ne, ne_eq] at hfresh ⊢
    intro e he
    exact Nat.ne_of_lt (hfresh e he)
  · exact broadcast_spec_eq _ _ hids

/-- C7 witness: triggering "s1" with "Break-in detected" on the demo
state appends the critical event with the sensor's name and the text in
the payload, and delivers the wire message to both live viewers. -/
theorem trigger_event_broadcast_shape_witness :
    (manual_trigger "s1" true "Break-in detected" demoSt).2
      = .ok (specSeverity "Break-in detected") ∧
    (manual_trigger "s1" true "Break-in detected" demoSt).1.events
      = demoSt.events ++ [⟨demoSt.nextId, demoSt.clock,
          sevString (specSeverity "Break-in detected"), "manual.trigger",
          some [("sensor", demoSen1.name), ("msg", "Break-in detected")]⟩] ∧
    demoSt.events.all (fun e => e.id != demoSt.nextId) = true ∧
    (manual_trigger "s1" true "Break-in detected" demoSt).1.viewers
      = demoSt.viewers.filterMap (fun v => if v.alive then
          some { v with inbox := v.inbox ++
            [⟨"event", ⟨sevString (specSeverity "Break-in detected"), "manual.trigger",
              some [("sensor", demoSen1.name), ("msg", "Break-in detected")]⟩⟩] }
          else none) :=
  trigger_event_broadcast_shape demoSt "s1" "Break-in detected" demoSen1
    (by decide) (by decide) (by decide)

/-- C8: starting from the seeded startup state, after every sequence of
core operations (triggers with any flag and text, resets) every registry
row's alert level lies in {0,1,2,3}. -/
theorem alert_level_invariant (ops : List Op) :
    levelsOKb (runOps startSt ops) = true :=
  runOps_levels ops startSt (by decide)

/-! ### C9: tie order of equal-timestamp events -/

/-- First of two events written at the same instant. -/
def tieEv1 : Event := ⟨1, 5, "info", "manual.trigger", none⟩

/-- Second of two events written at the same instant. -/
def tieEv2 : Event := ⟨2, 5, "info", "manual.trigger", none⟩

/-- An event table with two same-timestamp rows, `tieEv1` inserted first. -/
def tieEvs : List Event := [tieEv1, tieEv2]

/-- The column list of the `events` table (backend.py lines 49-57). -/
def eventsColumns : List String :=
  ["id", "timestamp", "level", "source", "payload"]

/-- C9 counterexample: the code does not maintain a stable total order
for same-instant writes. The schema has no sequence-number column, and
`ORDER BY timestamp DESC` admits BOTH relative orders of the two
equal-timestamp events as query results, so `recent()` is not guaranteed
to order them by insertion (or by anything else). -/
theorem recent_tie_order_not_determined :
    sqlSelectDesc tieEvs 20 [tieEv1, tieEv2] ∧
    sqlSelectDesc tieEvs 20 [tieEv2, tieEv1] ∧
    [tieEv1, tieEv2] ≠ [tieEv2, tieEv1] ∧
    eventsColumns.contains "seq" = false :=
  ⟨⟨[tieEv1, tieEv2], List.Perm.refl _, by decide, rfl⟩,
   ⟨[tieEv2, tieEv1], List.Perm.swap tieEv1 tieEv2 [], by decide, rfl⟩,
   by decide, by decide⟩

/-- C9 amended: `recent(limit)` returns at most `limit` events, sorted
non-increasing by timestamp, all drawn from the store; the relative
order of equal-timestamp events is left unspecified by the query. -/
theorem sql_recent_sorted_bounded (evs : List Event) (n : Nat) (r : List Event)
    (h : sqlSelectDesc evs n r) :
    r.length ≤ n ∧ tsSortedDesc r = true ∧ ∀ e ∈ r, e ∈ evs := by
  obtain ⟨p, hperm, hsort, hr⟩ := h
  subst hr
  refine ⟨?_, tsSortedDesc_take _ _ hsort, ?_⟩
  · rw [List.length_take]
    omega
  · intro e he
    exact hperm.subset (List.take_subset _ _ he)

/-- C9 amended witness: one admissible answer on the tied table is
bounded, sorted and drawn from the table. -/
theorem sql_recent_sorted_bounded_witness :
    ([tieEv1, tieEv2] : List Event).length ≤ 20 ∧
    tsSortedDesc [tieEv1, tieEv2] = true ∧
    ∀ e ∈ ([tieEv1, tieEv2] : List Event), e ∈ tieEvs :=
  sql_recent_sorted_bounded tieEvs 20 [tieEv1, tieEv2]
    ⟨[tieEv1, tieEv2], List.Perm.refl _, by decide, rfl⟩

/-- C10 (implicit defaults): a bare trigger call uses active = true and
event_text = "Manual Trigger"; that text matches no severity keyword, so
on a known sensor the level becomes Standard (1), an info-level event is
appended and the wire message is delivered to every live viewer — never
a silent no-op. -/
theorem trigger_defaults_not_silent (s : St) (sensor_id : String) (sen0 : Sensor)
    (hfind : s.sensors.find? (fun x => x.id == sensor_id) = some sen0)
    (hids : (s.viewers.map (fun v => v.vid)).Nodup) :
    defaultActive = true ∧
    defaultEventText = "Manual Trigger" ∧
    specSeverity defaultEventText = 1 ∧
    (manual_trigger sensor_id defaultActive defaultEventText s).2 = .ok 1 ∧
    (manual_trigger sensor_id defaultActive defaultEventText s).1.events
      = s.events ++ [⟨s.nextId, s.clock, "info", "manual.trigger",
          some [("sensor", sen0.name), ("msg", defaultEventText)]⟩] ∧
    (manual_trigger sensor_id defaultActive defaultEventText s).1.viewers
      = s.viewers.filterMap (fun v => if v.alive then
          some { v with inbox := v.inbox ++ [⟨"event", ⟨"info", "manual.trigger",
            some [("sensor", sen0.name), ("msg", defaultEventText)]⟩⟩] }
          else none) := by
  have hsev : sevString (classifyLevel defaultEventText) = "info" := by decide
  have hlvl : classifyLevel defaultEventText = 1 := by decide
  refine ⟨rfl, rfl, by decide, ?_, ?_, ?_⟩
  · show (manual_trigger sensor_id true defaultEventText s).2 = .ok 1
    rw [manual_trigger_active_eq s sensor_id defaultEventText sen0 hfind]
    show Except.ok (classifyLevel defaultEventText) = Except.ok 1
    rw [hlvl]
  · show (manual_trigger sensor_id true defaultEventText s).1.events = _
    rw [manual_trigger_active_eq s sensor_id defaultEventText sen0 hfind]
    dsimp only [log_event]
    rw [hsev]
  · show (manual_trigger sensor_id true defaultEventText s).1.viewers = _
    rw [manual_trigger_active_eq s sensor_id defaultEventText sen0 hfind]
    dsimp only [log_event]
    rw [hsev]
    exact broadcast_spec_eq _ _ hids

/-- C10 witness: a bare trigger of "s1" on the demo state returns level
1, appends the info event and delivers to both live viewers. -/
theorem trigger_defaults_not_silent_witness :
    defaultActive = true ∧
    defaultEventText = "Manual Trigger" ∧
    specSeverity defaultEventText = 1 ∧
    (manual_trigger "s1" defaultActive defaultEventText demoSt).2 = .ok 1 ∧
    (manual_trigger "s1" defaultActive defaultEventText demoSt).1.events
      = demoSt.events ++ [⟨demoSt.nextId, demoSt.clock, "info", "manual.trigger",
          some [("sensor", demoSen1.name), ("msg", defaultEventText)]⟩] ∧
    (manual_trigger "s1" defaultActive defaultEventText demoSt).1.viewers
      = demoSt.viewers.filterMap (fun v => if v.alive then
          some { v with inbox := v.inbox ++ [⟨"event", ⟨"info", "manual.trigger",
            some [("sensor", demoSen1.name), ("msg", defaultEventText)]⟩⟩] }
          else none) :=
  trigger_defaults_not_silent demoSt "s1" demoSen1 (by decide) (by decide)
